import Mathlib

/-!
Verification of the scanner-service core (job orchestrator, executor mapping,
in-memory store) of `furkansarikaya/nmap-ui-microservices`.

Shallow embedding conventions:
* `time.Time` and `time.Duration` are modelled as `Int` (Unix nanoseconds);
  the code only compares and copies them.
* Go string-typed enumerations (`ScanStatus`, `ScanType`, `errors.Type`) are
  modelled as `String` with the same constant values as the source.
* Fallible operations return `Except AppError _` / `Option _`; a Go panic is
  modelled as `none`.
* The goroutine-mutex structure is modelled by presenting each
  mutex-protected critical section as a single atomic transition on an
  explicit state value.
-/

/-! ## pkg/errors -/

/-- `errors.Type` from pkg/errors: a string-typed error classification. -/
abbrev ErrType := String

def ErrInternal : ErrType := "INTERNAL"

def ErrNotFound : ErrType := "NOT_FOUND"

def ErrInvalidInput : ErrType := "INVALID_INPUT"

def ErrTimeout : ErrType := "TIMEOUT"

def ErrUnavailable : ErrType := "UNAVAILABLE"

def ErrUnauthorized : ErrType := "UNAUTHORIZED"

def ErrForbidden : ErrType := "FORBIDDEN"

def ErrAlreadyExists : ErrType := "ALREADY_EXISTS"

/-- `errors.Error` from pkg/errors (the wrapped cause `Err` is dropped: the
code only ever reads the type and message). `etype` stands for the Go field
`Type`, which is not a legal Lean field name. -/
structure AppError where
  etype : ErrType
  message : String
deriving DecidableEq, Repr

def NewInternal (message : String) : AppError := ⟨ErrInternal, message⟩

def NewNotFound (message : String) : AppError := ⟨ErrNotFound, message⟩

def NewInvalidInput (message : String) : AppError := ⟨ErrInvalidInput, message⟩

def NewTimeout (message : String) : AppError := ⟨ErrTimeout, message⟩

def NewUnavailable (message : String) : AppError := ⟨ErrUnavailable, message⟩

/-! ## domain/models.go -/

/-- `time.Minute` in nanoseconds. -/
def timeMinute : Int := 60000000000

def ScanStatusPending : String := "PENDING"

def ScanStatusRunning : String := "RUNNING"

def ScanStatusCompleted : String := "COMPLETED"

def ScanStatusFailed : String := "FAILED"

def ScanStatusCancelled : String := "CANCELLED"

/-- `domain.TimingTemplate` is a Go `int`. -/
abbrev TimingTemplate := Int

def TimingParanoid : TimingTemplate := 0

def TimingNormal : TimingTemplate := 3

def TimingInsane : TimingTemplate := 5

/-- `domain.ScanOptions`. `scanType` is the string-typed `ScanType`. -/
structure ScanOptions where
  target : String
  ports : String
  scanType : String
  timingTemplate : TimingTemplate
  serviceDetection : Bool
  osDetection : Bool
  scriptScan : Bool
  extraOptions : List String
  timeout : Int
deriving DecidableEq, Repr

/-- `domain.Port`. -/
structure Port where
  port : Int
  protocol : String
  state : String
  service : String
  product : String
  version : String
  extraInfo : String
deriving DecidableEq, Repr

/-- `domain.Script`; `data : map[string]string` is modelled as an association
list (the mapping always leaves it empty). -/
structure Script where
  id : String
  output : String
  data : List (String × String)
deriving DecidableEq, Repr

/-- `domain.HostMetadata`; `UpTime float64` and `LastBoot time.Time` are
modelled as `Int` (the mapping copies parsed values without arithmetic). -/
structure HostMetadata where
  distance : Int
  upTime : Int
  lastBoot : Int
  tcpSequence : String
  ipidSequence : String
deriving DecidableEq, Repr

/-- `domain.Host`. -/
structure Host where
  ip : String
  hostnames : List String
  status : String
  os : String
  ports : List Port
  scripts : List Script
  metadata : HostMetadata
deriving DecidableEq, Repr

/-- `domain.ScanResult`; `Duration float64` is modelled as `Int` (copied
verbatim from the report, never computed with). -/
structure ScanResult where
  id : String
  scanID : String
  userID : String
  startTime : Int
  endTime : Int
  duration : Int
  command : String
  summary : String
  totalHosts : Int
  upHosts : Int
  hosts : List Host
deriving DecidableEq, Repr

/-- `domain.Scan`; `Progress float64` is modelled as `Int` (only 0 and 100
are ever assigned). -/
structure Scan where
  id : String
  userID : String
  options : ScanOptions
  status : String
  progress : Int
  createdAt : Int
  startedAt : Option Int
  completedAt : Option Int
  error : String
  resultID : String
deriving DecidableEq, Repr

/-! ## domain/service.go — ScanService state

The service owns `activeScans` (a map guarded by `s.mu`) and delegates
persistence to the in-memory repository.  We verify the service composed
with `MemoryScanRepository`, so the state carries the repository's two maps
as well.  Go maps keyed by `ID` are modelled as lists of records whose `id`
fields are the keys (uniqueness is a hypothesis where it matters). -/

structure ServiceState where
  maxConcurrentScans : Nat
  activeScans : List Scan
  repoScans : List Scan
  repoResults : List ScanResult
deriving Repr

/-- Go map lookup `m[id]` on a record list keyed by `id`. -/
def lookupScan (l : List Scan) (id : String) : Option Scan :=
  l.find? (fun s => s.id = id)

/-- Go map store `m[scan.ID] = &scanCopy`: replace the entry with the same
key if present, else add the entry. -/
def storeScan (l : List Scan) (scan : Scan) : List Scan :=
  if (lookupScan l scan.id).isSome then
    l.map (fun s => if s.id = scan.id then scan else s)
  else
    l ++ [scan]

/-- `validateScanOptions` (service.go:266-289).  The Go method receives
`options` **by value**: the three defaulting assignments below mutate a
local copy that is discarded when the function returns, so only the error
result escapes.  The `let` rebindings reproduce those assignments; the final
`none` reproduces `return nil`, dropping the rebound copy exactly as the Go
code does. -/
def validateScanOptions (options : ScanOptions) : Option AppError :=
  if options.target = "" then
    some (NewInvalidInput "target is required")
  else
    let options := if options.timeout = 0 then
        { options with timeout := 5 * timeMinute } else options
    let options := if options.ports = "" then
        { options with ports := "1-1000" } else options
    let _ := if options.timingTemplate < TimingParanoid ∨
        TimingInsane < options.timingTemplate then
        { options with timingTemplate := TimingNormal } else options
    none

/-- `StartScan` (service.go:56-96) composed with the in-memory repository's
`SaveScan` (repository.go:39-53, which always succeeds, so the rollback
branch at service.go:85-90 is unreachable here).  `newId` stands for
`uuid.New().String()` and `now` for `time.Now()`.  The mutex-guarded
check-then-insert (service.go:63-82) is one atomic critical section and
appears here as a single transition. -/
def StartScan (newId : String) (now : Int) (userID : String)
    (options : ScanOptions) (s : ServiceState) :
    Except AppError Scan × ServiceState :=
  match validateScanOptions options with
  | some e => (.error e, s)
  | none =>
    if s.activeScans.length ≥ s.maxConcurrentScans then
      (.error (NewUnavailable "maximum concurrent scans reached"), s)
    else
      let scan : Scan :=
        { id := newId
          userID := userID
          options := options
          status := ScanStatusPending
          progress := 0
          createdAt := now
          startedAt := none
          completedAt := none
          error := ""
          resultID := "" }
      let s := { s with activeScans := s.activeScans ++ [scan] }
      let s := { s with repoScans := storeScan s.repoScans scan }
      (.ok scan, s)

/-- `GetScan` (service.go:98-115): the active set is consulted first, then
the repository (`GetScanByID`, repository.go:76-89, which hands back a copy;
at the value level a copy is the value itself — aliasing is studied
separately in the heap model below). -/
def GetScan (id : String) (s : ServiceState) : Except AppError Scan :=
  match lookupScan s.activeScans id with
  | some scan => .ok scan
  | none =>
    match lookupScan s.repoScans id with
    | some scan => .ok scan
    | none => .error (NewNotFound "scan not found")

/-- `UpdateScan` of the in-memory repository (repository.go:56-74): fails
with NotFound when no record exists for the id, else overwrites the record
with a copy. -/
def UpdateScan (l : List Scan) (scan : Scan) : Except AppError (List Scan) :=
  if (lookupScan l scan.id).isSome then
    .ok (l.map (fun s => if s.id = scan.id then scan else s))
  else
    .error (NewNotFound "scan not found")

/-- `CancelScan` (service.go:127-156) composed with the in-memory
repository, with `now` standing for `time.Now()`.  When `GetScan` found the
scan in the active set, the Go code mutates the shared heap object before
calling `UpdateScan`; the model mirrors that by writing the mutated record
back into `activeScans` first.  On `UpdateScan` success the scan is removed
from the active set (service.go:151-153). -/
def CancelScan (now : Int) (id : String) (s : ServiceState) :
    Except AppError Unit × ServiceState :=
  match GetScan id s with
  | .error e => (.error e, s)
  | .ok scan =>
    if scan.status ≠ ScanStatusRunning ∧ scan.status ≠ ScanStatusPending then
      (.error (NewInvalidInput "scan is not running or pending"), s)
    else
      let scan := { scan with
        status := ScanStatusCancelled
        completedAt := some now }
      let s := if (lookupScan s.activeScans id).isSome then
          { s with activeScans :=
              s.activeScans.map (fun t => if t.id = id then scan else t) }
        else s
      match UpdateScan s.repoScans scan with
      | .ok repo =>
        (.ok (),
         { s with
           repoScans := repo
           activeScans := s.activeScans.filter (fun t => t.id ≠ id) })
      | .error _ => (.error (NewInternal "failed to update scan"), s)

/-! ## repository.go — ListScans

`ListScans` (repository.go:92-129) iterates the `scans` map (arbitrary
iteration order: we take the repository's record list as given), filters by
user, sorts by `CreatedAt` newest-first with an in-place double loop, and
paginates.  The double loop

    for i .. { for j := i+1 .. { if scans[i].CreatedAt.Before(scans[j].CreatedAt) swap } }

is, for each `i`, one pass that threads the current `scans[i]` through the
tail, swapping whenever a later element is strictly newer; `innerPass cur l`
returns the final `scans[i]` together with the tail contents after the pass. -/

def innerPass (cur : Scan) : List Scan → Scan × List Scan
  | [] => (cur, [])
  | x :: xs =>
    if cur.createdAt < x.createdAt then
      let p := innerPass x xs
      (p.1, cur :: p.2)
    else
      let p := innerPass cur xs
      (p.1, x :: p.2)

theorem innerPass_length (cur : Scan) (l : List Scan) :
    (innerPass cur l).2.length = l.length := by
  induction l generalizing cur with
  | nil => rfl
  | cons x xs ih =>
    by_cases h : cur.createdAt < x.createdAt <;>
      simp [innerPass, h, ih]

/-- The selection-style sort of repository.go:110-116. -/
def sortScans : List Scan → List Scan
  | [] => []
  | x :: xs =>
    let p := innerPass x xs
    p.1 :: sortScans p.2
termination_by l => l.length
decreasing_by
  simp [innerPass_length]

/-- Go slice expression `l[lo:hi]` on a slice of length `len l`; `none`
models the out-of-range run-time panic (`0 ≤ lo ≤ hi ≤ len` required). -/
def goSlice (l : List Scan) (lo hi : Int) : Option (List Scan) :=
  if 0 ≤ lo ∧ lo ≤ hi ∧ hi ≤ (l.length : Int) then
    some ((l.drop lo.toNat).take (hi - lo).toNat)
  else
    none

/-- `ListScans` (repository.go:92-129).  Go `int` arguments are `Int`; the
result is `none` exactly when the Go code panics in `scans[offset:end]`. -/
def ListScans (repoScans : List Scan) (userID : String)
    (limit offset : Int) : Option (List Scan) :=
  let scans := repoScans.filter (fun s => userID = "" ∨ s.userID = userID)
  let scans := sortScans scans
  if offset ≥ (scans.length : Int) then
    some []
  else
    let e := offset + limit
    let e := if e > (scans.length : Int) then (scans.length : Int) else e
    goSlice scans offset e

/-! ## repository.go — reaper (`cleanupOldScans`, repository.go:195-239)

One tick of the cleanup loop, under the repository write lock.  The first
loop visits every entry of the `scans` map once (deletions only remove the
entry being visited from `scans` and a key from the other map, so iterating
the entry list is faithful); the second loop removes orphaned results. -/

/-- The scan-deletion loop (repository.go:206-221): each scan older than the
cutoff is removed, and the result it references (if any) is deleted from the
results map by key. -/
def reapScans (cutoff : Int) :
    List Scan → List ScanResult → List Scan × List ScanResult
  | [], results => ([], results)
  | s :: rest, results =>
    if s.createdAt < cutoff then
      let results := if s.resultID ≠ "" then
          results.filter (fun r => r.id ≠ s.resultID)
        else results
      reapScans cutoff rest results
    else
      let p := reapScans cutoff rest results
      (s :: p.1, p.2)

/-- One full reaper tick (repository.go:200-237): the scan loop, then the
orphan loop (repository.go:224-235) which deletes every result whose
non-empty `ScanID` no longer resolves in the scans map. -/
def cleanupTick (cutoff : Int) (scans : List Scan)
    (results : List ScanResult) : List Scan × List ScanResult :=
  let p := reapScans cutoff scans results
  (p.1, p.2.filter (fun r => r.scanID = "" ∨ (lookupScan p.1 r.scanID).isSome))

/-! ## adapters — nmap XML report model (grpc.go:116-196) -/

structure XmlStatus where
  state : String
deriving DecidableEq, Repr

structure XmlAddress where
  addr : String
  addrType : String
  vendor : String
deriving DecidableEq, Repr

/-- An entry of `hostnames`; `htype` stands for the Go field `Type`. -/
structure XmlHostname where
  name : String
  htype : String
deriving DecidableEq, Repr

structure XmlPortState where
  state : String
  reason : String
deriving DecidableEq, Repr

structure XmlService where
  name : String
  product : String
  version : String
  extraInfo : String
  method : String
  conf : String
  deviceType : String
deriving DecidableEq, Repr

structure XmlScript where
  id : String
  output : String
deriving DecidableEq, Repr

structure XmlPort where
  protocol : String
  portId : Int
  state : XmlPortState
  service : XmlService
  scripts : List XmlScript
deriving DecidableEq, Repr

structure XmlOsMatch where
  name : String
  accuracy : String
deriving DecidableEq, Repr

structure XmlUptime where
  seconds : String
  lastBoot : String
deriving DecidableEq, Repr

structure XmlTcpSequence where
  index : String
  difficulty : String
deriving DecidableEq, Repr

/-- `ipidsequence`; `cls` stands for the Go field `Class`. -/
structure XmlIpIdSequence where
  cls : String
deriving DecidableEq, Repr

structure XmlDistance where
  value : String
deriving DecidableEq, Repr

structure XmlHost where
  startTime : Int
  endTime : Int
  status : XmlStatus
  addresses : List XmlAddress
  hostnames : List XmlHostname
  ports : List XmlPort
  osMatches : List XmlOsMatch
  uptime : XmlUptime
  distance : XmlDistance
  tcpSequence : XmlTcpSequence
  ipidSequence : XmlIpIdSequence
deriving DecidableEq, Repr

/-- `runstats/finished`; `elapsed float64` modelled as `Int` (copied
verbatim).  `fexit` stands for the attribute `exit`. -/
structure XmlFinished where
  time : Int
  timeStr : String
  elapsed : Int
  summary : String
  fexit : String
deriving DecidableEq, Repr

structure XmlHostsStats where
  up : Int
  down : Int
  total : Int
deriving DecidableEq, Repr

structure XmlRunStats where
  finished : XmlFinished
  hosts : XmlHostsStats
deriving DecidableEq, Repr

/-- `NmapXML` (grpc.go:116-196). -/
structure NmapXML where
  args : String
  start : Int
  version : String
  hosts : List XmlHost
  runStats : XmlRunStats
deriving DecidableEq, Repr

/-! ## adapters — buildCommandArgs (grpc.go:299-350) -/

def ScanTypeSYN : String := "SYN"

def ScanTypeConnect : String := "CONNECT"

def ScanTypeUDP : String := "UDP"

def ScanTypeVersion : String := "VERSION"

def ScanTypeScript : String := "SCRIPT"

def ScanTypeAll : String := "ALL"

def buildCommandArgs (options : ScanOptions) : List String :=
  let args := [options.target]
  let args := args ++ (if options.ports ≠ "" then ["-p", options.ports] else [])
  let args := args ++
    (if options.scanType = ScanTypeSYN then ["-sS"]
     else if options.scanType = ScanTypeConnect then ["-sT"]
     else if options.scanType = ScanTypeUDP then ["-sU"]
     else if options.scanType = ScanTypeVersion then ["-sV"]
     else if options.scanType = ScanTypeScript then ["-sC"]
     else if options.scanType = ScanTypeAll then ["-A"]
     else [])
  let args := args ++
    (if TimingParanoid ≤ options.timingTemplate ∧
        options.timingTemplate ≤ TimingInsane then
       ["-T" ++ toString options.timingTemplate]
     else [])
  let args := args ++ (if options.serviceDetection then ["-sV"] else [])
  let args := args ++ (if options.osDetection then ["-O"] else [])
  let args := args ++ (if options.scriptScan then ["-sC"] else [])
  args ++ options.extraOptions

/-! ## adapters — convertToDomainModel (grpc.go:353-453)

The stdlib best-effort parsers used for optional metadata fields
(`strconv.Atoi`, `strconv.ParseFloat`, `time.Parse` — each called with its
error ignored, so only the returned value matters) are abstracted as
function parameters `atoi`, `parseF`, `parseT`; no verified property
depends on their behaviour. -/

/-- The per-host port loop (grpc.go:400-423): ports are appended to
`host.Ports` and each port's scripts to `host.Scripts`, in report order. -/
def processPorts : List XmlPort → List Port × List Script
  | [] => ([], [])
  | p :: rest =>
    let port : Port :=
      { port := p.portId
        protocol := p.protocol
        state := p.state.state
        service := p.service.name
        product := p.service.product
        version := p.service.version
        extraInfo := p.service.extraInfo }
    let scripts := p.scripts.map
      (fun sc => ({ id := sc.id, output := sc.output, data := [] } : Script))
    let r := processPorts rest
    (port :: r.1, scripts ++ r.2)

/-- The body of the host loop for one "up" host (grpc.go:373-449). -/
def convertHost (atoi parseF parseT : String → Int) (h : XmlHost) : Host :=
  let pp := processPorts h.ports
  { ip := (((h.addresses.find? (fun a => a.addrType = "ipv4")).map
        (fun a => a.addr)).getD "")
    hostnames := h.hostnames.map (fun hn => hn.name)
    status := h.status.state
    os := match h.osMatches with
      | [] => ""
      | m :: _ => m.name
    ports := pp.1
    scripts := pp.2
    metadata :=
      { distance := if h.distance.value ≠ "" then atoi h.distance.value else 0
        upTime := if h.uptime.seconds ≠ "" then parseF h.uptime.seconds else 0
        lastBoot := if h.uptime.lastBoot ≠ "" then parseT h.uptime.lastBoot
          else 0
        tcpSequence := if h.tcpSequence.difficulty ≠ "" then
            h.tcpSequence.difficulty else ""
        ipidSequence := if h.ipidSequence.cls ≠ "" then h.ipidSequence.cls
          else "" } }

/-- The host loop (grpc.go:367-450): hosts whose reported state is not
`"up"` are skipped; the rest are converted in order. -/
def processHosts (atoi parseF parseT : String → Int) :
    List XmlHost → List Host
  | [] => []
  | h :: rest =>
    if h.status.state ≠ "up" then
      processHosts atoi parseF parseT rest
    else
      convertHost atoi parseF parseT h :: processHosts atoi parseF parseT rest

/-- `convertToDomainModel` (grpc.go:353-453).  `endTime` carries the raw
`runstats/finished@time` value (the code wraps it with `time.Unix`). -/
def convertToDomainModel (atoi parseF parseT : String → Int)
    (nmapXML : NmapXML) (startTime : Int) : ScanResult :=
  { id := ""
    scanID := ""
    userID := ""
    startTime := startTime
    endTime := nmapXML.runStats.finished.time
    duration := nmapXML.runStats.finished.elapsed
    command := ""
    summary := nmapXML.runStats.finished.summary
    totalHosts := nmapXML.runStats.hosts.total
    upHosts := nmapXML.runStats.hosts.up
    hosts := processHosts atoi parseF parseT nmapXML.hosts }

/-! ## adapters — ExecuteScan (grpc.go:217-296) -/

/-- The two values `ctx.Err()` can report once the context is done. -/
inductive CtxError
  | canceled
  | deadlineExceeded
deriving DecidableEq, Repr

/-- The external effects `ExecuteScan` observes: temp-file creation, the
subprocess run outcome together with the context state at that moment,
reading back and parsing the report, and the fresh uuid. -/
structure ExecEnv where
  createTempOk : Bool
  tmpFileName : String
  runError : Bool
  ctxErr : Option CtxError
  readFileOk : Bool
  parseOk : Bool
  xml : NmapXML
  newId : String
deriving Repr

/-- `ExecuteScan` (grpc.go:217-296) over an `ExecEnv` describing the
external world. -/
def ExecuteScan (atoi parseF parseT : String → Int) (env : ExecEnv)
    (nmapPath : String) (startTime : Int) (options : ScanOptions) :
    Except AppError ScanResult :=
  let args := buildCommandArgs options
  if ¬env.createTempOk then
    .error (NewInternal "failed to create temporary file")
  else
    let args := args ++ ["-oX", env.tmpFileName]
    if env.runError then
      match env.ctxErr with
      | some .canceled => .error (NewTimeout "scan was cancelled")
      | some .deadlineExceeded => .error (NewTimeout "scan timed out")
      | none => .error (NewInternal "nmap scan failed")
    else if ¬env.readFileOk then
      .error (NewInternal "failed to read nmap output")
    else if ¬env.parseOk then
      .error (NewInternal "failed to parse nmap output")
    else
      let result := convertToDomainModel atoi parseF parseT env.xml startTime
      .ok { result with
        id := env.newId
        command := nmapPath ++ " " ++ String.intercalate " " args }

/-! ## repository.go — aliasing model for the hand-out-copies contract

`GetScanByID` (repository.go:76-89) executes `scanCopy := *scan`, a Go
struct copy.  A struct copy duplicates flat fields but a slice-typed field
(e.g. `Options.ExtraOptions`, `ScanResult.Hosts`) is a slice header whose
backing array lives on the heap, so original and copy share the backing
array.  To state this we model a `[]string` field by the address of its
backing array in an explicit heap; flat fields are value-copied and carry no
aliasing, so only the record key and the slice address are represented. -/

/-- Heap of `[]string` backing arrays, addressed by index. -/
abbrev StrSliceHeap := List (List String)

/-- A stored `*domain.Scan` as the repository map holds it: its key and the
backing-array address of `Options.ExtraOptions`. -/
structure ScanV where
  id : String
  extraOptionsRef : Nat
deriving DecidableEq, Repr

/-- Dereference a scan's `Options.ExtraOptions`. -/
def readExtraOptions (heap : StrSliceHeap) (s : ScanV) : List String :=
  heap.getD s.extraOptionsRef []

/-- Caller-side mutation `v.Options.ExtraOptions[idx] = x` through a value
`v`: writes the backing array `v.extraOptionsRef` points to. -/
def writeExtraOptionsElem (heap : StrSliceHeap) (v : ScanV) (idx : Nat)
    (x : String) : StrSliceHeap :=
  heap.set v.extraOptionsRef ((heap.getD v.extraOptionsRef []).set idx x)

/-- `scanCopy := *scan` (repository.go:87): the struct copy keeps the same
backing-array address. -/
def copyScanShallow (s : ScanV) : ScanV := s

/-- The repository with its heap made explicit. -/
structure RepoH where
  heap : StrSliceHeap
  scans : List ScanV
deriving Repr

/-- `GetScanByID` (repository.go:76-89) in the aliasing model: look up the
stored record and hand back `scanCopy := *scan`. -/
def GetScanByIDh (st : RepoH) (id : String) : Option ScanV :=
  (st.scans.find? (fun s => s.id = id)).map copyScanShallow

/-! ## Sample store states used to instantiate the theorems -/

/-- A scan expired relative to cutoff 10, referencing result "r1". -/
def sampleOldScan : Scan :=
  ⟨"old", "u", ⟨"t", "", "", 3, false, false, false, [], 0⟩,
   "COMPLETED", 0, 0, none, none, "", "r1"⟩

/-- A scan within the retention window, referencing result "r2". -/
def sampleYoungScan : Scan :=
  ⟨"young", "u", ⟨"t", "", "", 3, false, false, false, [], 0⟩,
   "COMPLETED", 0, 20, none, none, "", "r2"⟩

/-- The result of the expired scan. -/
def sampleResult1 : ScanResult := ⟨"r1", "old", "u", 0, 0, 0, "", "", 0, 0, []⟩

/-- The result of the young scan. -/
def sampleResult2 : ScanResult :=
  ⟨"r2", "young", "u", 0, 0, 0, "", "", 0, 0, []⟩

/-- An orphaned result whose job id resolves to nothing. -/
def sampleResult3 : ScanResult :=
  ⟨"r3", "ghost", "u", 0, 0, 0, "", "", 0, 0, []⟩

def sampleScans : List Scan := [sampleOldScan, sampleYoungScan]

def sampleResults : List ScanResult :=
  [sampleResult1, sampleResult2, sampleResult3]

/-! ## Theorems -/

/-- C1. The claim says StartScan persists default ports "1-1000", the
default 5-minute timeout, and timing level 3 in place of empty/zero/out-of-
range inputs.  On the code, `validateScanOptions` writes the defaults into a
by-value copy of `options` that is discarded on return, so the returned and
persisted scan carries the original values: ports `""`, timeout `0`, timing
`7`.  The call does succeed (the out-of-range timing level never causes a
failure), which is the one part of the claim the code honours. -/
theorem startScan_drops_option_defaults :
    let opts : ScanOptions :=
      { target := "t", ports := "", scanType := "", timingTemplate := 7,
        serviceDetection := false, osDetection := false, scriptScan := false,
        extraOptions := [], timeout := 0 }
    let r := StartScan "id1" 100 "u" opts ⟨5, [], [], []⟩
    ∃ scan : Scan, r.1 = .ok scan ∧
      scan.options = opts ∧
      scan.options.ports = "" ∧ scan.options.ports ≠ "1-1000" ∧
      scan.options.timeout = 0 ∧ scan.options.timeout ≠ 5 * timeMinute ∧
      scan.options.timingTemplate = 7 ∧ scan.options.timingTemplate ≠ 3 ∧
      lookupScan r.2.repoScans "id1" = some scan := by
  exact ⟨_, rfl, rfl, rfl, by decide, rfl, by decide, rfl, by decide, rfl⟩

/-- C3. When the target is empty, StartScan fails with an InvalidInput
error, and neither the active set nor the store changes. -/
theorem startScan_empty_target (newId : String) (now : Int) (userID : String)
    (options : ScanOptions) (s : ServiceState) (h : options.target = "") :
    StartScan newId now userID options s =
      (.error (NewInvalidInput "target is required"), s) ∧
    (NewInvalidInput "target is required").etype = ErrInvalidInput := by
  refine ⟨?_, rfl⟩
  simp [StartScan, validateScanOptions, h]

theorem startScan_empty_target_witness :
    (({ target := "", ports := "", scanType := "", timingTemplate := 0,
        serviceDetection := false, osDetection := false, scriptScan := false,
        extraOptions := [], timeout := 0 } : ScanOptions).target = "") ∧
    (StartScan "id1" 7 "u"
        { target := "", ports := "", scanType := "", timingTemplate := 0,
          serviceDetection := false, osDetection := false, scriptScan := false,
          extraOptions := [], timeout := 0 }
        ⟨3, [], [], []⟩ =
      (.error (NewInvalidInput "target is required"), ⟨3, [], [], []⟩) ∧
     (NewInvalidInput "target is required").etype = ErrInvalidInput) := by
  exact ⟨rfl, startScan_empty_target "id1" 7 "u" _ ⟨3, [], [], []⟩ rfl⟩

/-- C2. With valid options and the active set at (or past) the configured
maximum, StartScan fails with the Unavailable error (the spec's
ResourceExhausted) and changes nothing; and — the admission bound, which
holds because the check and the insertion sit in one mutex-guarded critical
section, modelled as a single transition — any StartScan call from a state
within budget leaves the active set within budget. -/
theorem startScan_at_capacity (newId : String) (now : Int) (userID : String)
    (options : ScanOptions) (s : ServiceState)
    (hvalid : options.target ≠ "")
    (hfull : s.activeScans.length ≥ s.maxConcurrentScans) :
    StartScan newId now userID options s =
      (.error (NewUnavailable "maximum concurrent scans reached"), s) ∧
    (NewUnavailable "maximum concurrent scans reached").etype = ErrUnavailable ∧
    ∀ (newId₂ : String) (now₂ : Int) (uid₂ : String) (opts₂ : ScanOptions)
      (t : ServiceState),
      t.activeScans.length ≤ t.maxConcurrentScans →
      (StartScan newId₂ now₂ uid₂ opts₂ t).2.maxConcurrentScans =
          t.maxConcurrentScans ∧
      (StartScan newId₂ now₂ uid₂ opts₂ t).2.activeScans.length ≤
          t.maxConcurrentScans := by
  refine ⟨?_, rfl, ?_⟩
  · simp [StartScan, validateScanOptions, hvalid, hfull]
  · intro newId₂ now₂ uid₂ opts₂ t ht
    unfold StartScan
    cases hv : validateScanOptions opts₂ with
    | some e =>
      simp only [hv]
      exact ⟨by trivial, ht⟩
    | none =>
      simp only [hv]
      by_cases hlen : t.activeScans.length ≥ t.maxConcurrentScans
      · rw [if_pos hlen]
        exact ⟨by trivial, ht⟩
      · rw [if_neg hlen]
        refine ⟨by trivial, ?_⟩
        simp only [List.length_append, List.length_cons, List.length_nil]
        omega

theorem startScan_at_capacity_witness :
    (({ target := "t", ports := "p", scanType := "", timingTemplate := 3,
        serviceDetection := false, osDetection := false, scriptScan := false,
        extraOptions := [], timeout := 1 } : ScanOptions).target ≠ "") ∧
    (⟨0, [], [], []⟩ : ServiceState).activeScans.length ≥
      (⟨0, [], [], []⟩ : ServiceState).maxConcurrentScans ∧
    (StartScan "id1" 7 "u"
        { target := "t", ports := "p", scanType := "", timingTemplate := 3,
          serviceDetection := false, osDetection := false, scriptScan := false,
          extraOptions := [], timeout := 1 }
        ⟨0, [], [], []⟩).1 =
      .error (NewUnavailable "maximum concurrent scans reached") := by
  refine ⟨by decide, by decide, ?_⟩
  have h := startScan_at_capacity "id1" 7 "u"
    { target := "t", ports := "p", scanType := "", timingTemplate := 3,
      serviceDetection := false, osDetection := false, scriptScan := false,
      extraOptions := [], timeout := 1 }
    ⟨0, [], [], []⟩ (by decide) (by decide)
  rw [h.1]

/-- C9. The claim says values handed out by the store are independent
copies, mutation of which never reaches stored state.  On the code,
`scanCopy := *scan` copies the slice header of `Options.ExtraOptions`, so
the value `GetScanByID` returns shares its backing array with the stored
record: writing one element through the returned value changes what the
store holds from `["-v"]` to `["-X"]`. -/
theorem getScanByID_shares_backing_array :
    let stored : ScanV := ⟨"a", 0⟩
    let st : RepoH := ⟨[["-v"]], [stored]⟩
    ∃ g, GetScanByIDh st "a" = some g ∧
      g.extraOptionsRef = stored.extraOptionsRef ∧
      readExtraOptions st.heap stored = ["-v"] ∧
      readExtraOptions (writeExtraOptionsElem st.heap g 0 "-X") stored =
        ["-X"] := by
  exact ⟨⟨"a", 0⟩, rfl, rfl, rfl, rfl⟩

/-- A scan found by `GetScan id` carries that id. -/
theorem getScan_ok_id (id : String) (s : ServiceState) (scan : Scan)
    (h : GetScan id s = .ok scan) : scan.id = id := by
  unfold GetScan at h
  cases ha : lookupScan s.activeScans id with
  | some t =>
    rw [ha] at h
    cases h
    unfold lookupScan at ha
    have hp := List.find?_some ha
    simpa using hp
  | none =>
    rw [ha] at h
    cases hb : lookupScan s.repoScans id with
    | some t =>
      rw [hb] at h
      cases h
      unfold lookupScan at hb
      have hp := List.find?_some hb
      simpa using hp
    | none =>
      rw [hb] at h
      cases h

/-- Looking up the key of a just-overwritten record finds the new record. -/
theorem lookupScan_update (l : List Scan) (scan : Scan)
    (h : (lookupScan l scan.id).isSome) :
    lookupScan (l.map (fun s => if s.id = scan.id then scan else s)) scan.id =
      some scan := by
  induction l with
  | nil => simp [lookupScan] at h
  | cons x xs ih =>
    by_cases hx : x.id = scan.id
    · simp [lookupScan, List.find?_cons, hx]
    · have h' : (lookupScan xs scan.id).isSome := by
        simpa [lookupScan, List.find?_cons, hx] using h
      simpa [lookupScan, List.find?_cons, hx] using ih h'

/-- After filtering out a key, looking it up fails. -/
theorem lookupScan_filter_ne (l : List Scan) (id : String) :
    lookupScan (l.filter (fun t => t.id ≠ id)) id = none := by
  unfold lookupScan
  rw [List.find?_eq_none]
  intro x hx
  have hmem := List.of_mem_filter hx
  simp only [decide_eq_true_eq] at hmem ⊢
  exact hmem

/-- C4 counterexample. The claim says a cancel on a Completed scan fails
with an InvalidState error.  On the code, `CancelScan` returns
`errors.NewInvalidInput` — its type string is `INVALID_INPUT`, and the
errors package defines no `INVALID_STATE` type at all — so the claim's
stated error kind is wrong at this input. -/
theorem cancelScan_completed_not_invalid_state :
    let scanC : Scan :=
      { id := "a", userID := "u",
        options := ⟨"t", "p", "", 3, false, false, false, [], 1⟩,
        status := ScanStatusCompleted, progress := 100, createdAt := 0,
        startedAt := none, completedAt := some 1, error := "",
        resultID := "" }
    let st : ServiceState := ⟨5, [], [scanC], []⟩
    (CancelScan 5 "a" st).1 =
      .error (NewInvalidInput "scan is not running or pending") ∧
    (NewInvalidInput "scan is not running or pending").etype =
      "INVALID_INPUT" ∧
    "INVALID_INPUT" ≠ "INVALID_STATE" := by
  exact ⟨rfl, rfl, by decide⟩

/-- C4 (amended). For every scan `GetScan` resolves: if its status is
neither Pending nor Running, CancelScan fails with the InvalidInput error
(the code's error taxonomy has no InvalidState kind) and the state is
unchanged; if it is Pending or Running and the scan is persisted in the
store, CancelScan succeeds, the stored record becomes the scan with status
Cancelled and completion timestamp `some now` (non-nil), and the id is gone
from the active set. -/
theorem cancelScan_spec (now : Int) (id : String) (s : ServiceState)
    (scan : Scan) (hget : GetScan id s = .ok scan) :
    (scan.status ≠ ScanStatusRunning ∧ scan.status ≠ ScanStatusPending →
      CancelScan now id s =
        (.error (NewInvalidInput "scan is not running or pending"), s)) ∧
    ((scan.status = ScanStatusRunning ∨ scan.status = ScanStatusPending) →
      (lookupScan s.repoScans id).isSome = true →
      ∃ s', CancelScan now id s = (.ok (), s') ∧
        lookupScan s'.repoScans id =
          some { scan with
                 status := ScanStatusCancelled
                 completedAt := some now } ∧
        (some now : Option Int) ≠ none ∧
        lookupScan s'.activeScans id = none) := by
  have hid : scan.id = id := getScan_ok_id id s scan hget
  have hid' : ({ scan with
      status := ScanStatusCancelled
      completedAt := some now } : Scan).id = id := hid
  have hupd := lookupScan_update s.repoScans
    { scan with status := ScanStatusCancelled, completedAt := some now }
  rw [hid'] at hupd
  constructor
  · intro hterm
    simp only [CancelScan, hget]
    rw [if_pos hterm]
  · intro hrun hrepo
    have hcond : ¬(scan.status ≠ ScanStatusRunning ∧
        scan.status ≠ ScanStatusPending) := by tauto
    simp only [CancelScan, hget]
    rw [if_neg hcond]
    by_cases hact : (lookupScan s.activeScans id).isSome
    · rw [if_pos hact]
      simp only [UpdateScan]
      rw [show ({ scan with
          status := ScanStatusCancelled
          completedAt := some now } : Scan).id = id from hid]
      rw [if_pos hrepo]
      exact ⟨_, rfl, hupd hrepo, Option.some_ne_none now, lookupScan_filter_ne _ id⟩
    · rw [if_neg hact]
      simp only [UpdateScan]
      rw [show ({ scan with
          status := ScanStatusCancelled
          completedAt := some now } : Scan).id = id from hid]
      rw [if_pos hrepo]
      exact ⟨_, rfl, hupd hrepo, Option.some_ne_none now, lookupScan_filter_ne _ id⟩

theorem cancelScan_spec_witness :
    ∃ s', CancelScan 9 "a"
        ⟨5, [⟨"a", "u", ⟨"t", "p", "", 3, false, false, false, [], 1⟩,
              "PENDING", 0, 0, none, none, "", ""⟩],
            [⟨"a", "u", ⟨"t", "p", "", 3, false, false, false, [], 1⟩,
              "PENDING", 0, 0, none, none, "", ""⟩], []⟩ =
        (.ok (), s') ∧
      lookupScan s'.repoScans "a" =
        some { (⟨"a", "u", ⟨"t", "p", "", 3, false, false, false, [], 1⟩,
                "PENDING", 0, 0, none, none, "", ""⟩ : Scan) with
               status := ScanStatusCancelled
               completedAt := some 9 } ∧
      (some 9 : Option Int) ≠ none ∧
      lookupScan s'.activeScans "a" = none := by
  exact (cancelScan_spec 9 "a" _
    ⟨"a", "u", ⟨"t", "p", "", 3, false, false, false, [], 1⟩,
     "PENDING", 0, 0, none, none, "", ""⟩ (by rfl)).2
    (Or.inr rfl) (by rfl)

/-- C6 counterexample. The claim says a cancelled context makes ExecuteScan
fail with a Canceled error.  On the code, the cancellation branch calls
`errors.NewTimeout("scan was cancelled", ...)`, so the error type is
`TIMEOUT`; the errors package defines no Canceled kind at all. -/
theorem executeScan_cancelled_yields_timeout_type :
    ExecuteScan (fun _ => 0) (fun _ => 0) (fun _ => 0)
      ⟨true, "f", true, some .canceled, true, true,
       ⟨"", 0, "", [], ⟨⟨0, "", 0, "", ""⟩, ⟨0, 0, 0⟩⟩⟩, "r"⟩
      "nmap" 0 ⟨"t", "", "", 3, false, false, false, [], 0⟩ =
      .error (NewTimeout "scan was cancelled") ∧
    (NewTimeout "scan was cancelled").etype = "TIMEOUT" ∧
    ("TIMEOUT" : String) ≠ "CANCELED" ∧ ("TIMEOUT" : String) ≠ "CANCELLED" := by
  exact ⟨rfl, rfl, by decide, by decide⟩

/-- C6 (amended). When the subprocess run fails: a cancelled context yields
the Timeout-typed error with message "scan was cancelled", an exceeded
deadline yields the Timeout-typed error "scan timed out", and only when the
context reports neither does the generic Internal "nmap scan failed" error
surface — the context classification takes precedence. -/
theorem executeScan_ctx_error_precedence (atoi parseF parseT : String → Int)
    (env : ExecEnv) (nmapPath : String) (startTime : Int)
    (options : ScanOptions)
    (htemp : env.createTempOk = true) (hrun : env.runError = true) :
    (env.ctxErr = some .canceled →
      ExecuteScan atoi parseF parseT env nmapPath startTime options =
        .error (NewTimeout "scan was cancelled")) ∧
    (env.ctxErr = some .deadlineExceeded →
      ExecuteScan atoi parseF parseT env nmapPath startTime options =
        .error (NewTimeout "scan timed out")) ∧
    (env.ctxErr = none →
      ExecuteScan atoi parseF parseT env nmapPath startTime options =
        .error (NewInternal "nmap scan failed")) := by
  refine ⟨?_, ?_, ?_⟩ <;> intro hc <;>
    simp [ExecuteScan, htemp, hrun, hc]

theorem executeScan_ctx_error_precedence_witness :
    (⟨true, "f", true, some .deadlineExceeded, true, true,
      ⟨"", 0, "", [], ⟨⟨0, "", 0, "", ""⟩, ⟨0, 0, 0⟩⟩⟩,
      "r"⟩ : ExecEnv).createTempOk = true ∧
    ExecuteScan (fun _ => 0) (fun _ => 0) (fun _ => 0)
      ⟨true, "f", true, some .deadlineExceeded, true, true,
       ⟨"", 0, "", [], ⟨⟨0, "", 0, "", ""⟩, ⟨0, 0, 0⟩⟩⟩, "r"⟩
      "nmap" 0 ⟨"t", "", "", 3, false, false, false, [], 0⟩ =
      .error (NewTimeout "scan timed out") := by
  refine ⟨rfl, ?_⟩
  exact (executeScan_ctx_error_precedence (fun _ => 0) (fun _ => 0)
    (fun _ => 0) _ "nmap" 0 _ rfl rfl).2.1 rfl

/-- The host loop keeps exactly the "up" hosts, in order. -/
theorem processHosts_eq_filter_map (atoi parseF parseT : String → Int)
    (l : List XmlHost) :
    processHosts atoi parseF parseT l =
      (l.filter (fun h => h.status.state = "up")).map
        (convertHost atoi parseF parseT) := by
  induction l with
  | nil => rfl
  | cons h rest ih =>
    by_cases hs : h.status.state = "up"
    · simp [processHosts, hs, ih]
    · simp [processHosts, hs, ih]

/-- C5. The mapped result's host list is exactly the "up"-state hosts of the
report (converted in order), while the total/up counts are copied verbatim
from the report's run-statistics section; the final conjunct exhibits a
report (one "up" host, one "down" host, run-statistics counting both) where
the counts exceed the number of mapped hosts. -/
theorem convertToDomainModel_spec (atoi parseF parseT : String → Int)
    (nmapXML : NmapXML) (startTime : Int) :
    (convertToDomainModel atoi parseF parseT nmapXML startTime).hosts =
      (nmapXML.hosts.filter (fun h => h.status.state = "up")).map
        (convertHost atoi parseF parseT) ∧
    (convertToDomainModel atoi parseF parseT nmapXML startTime).totalHosts =
      nmapXML.runStats.hosts.total ∧
    (convertToDomainModel atoi parseF parseT nmapXML startTime).upHosts =
      nmapXML.runStats.hosts.up ∧
    (∀ t2 : Int,
      let xml2 : NmapXML :=
        ⟨"", 0, "",
         [⟨0, 0, ⟨"up"⟩, [], [], [], [], ⟨"", ""⟩, ⟨""⟩, ⟨"", ""⟩, ⟨""⟩⟩,
          ⟨0, 0, ⟨"down"⟩, [], [], [], [], ⟨"", ""⟩, ⟨""⟩, ⟨"", ""⟩, ⟨""⟩⟩],
         ⟨⟨0, "", 0, "", ""⟩, ⟨2, 0, 2⟩⟩⟩
      (convertToDomainModel atoi parseF parseT xml2 t2).hosts.length = 1 ∧
      (convertToDomainModel atoi parseF parseT xml2 t2).totalHosts = 2 ∧
      (convertToDomainModel atoi parseF parseT xml2 t2).upHosts = 2) := by
  refine ⟨processHosts_eq_filter_map atoi parseF parseT nmapXML.hosts,
    rfl, rfl, ?_⟩
  intro t2
  exact ⟨rfl, rfl, rfl⟩

/-- One inner pass keeps the multiset of elements. -/
theorem innerPass_perm (cur : Scan) (l : List Scan) :
    List.Perm ((innerPass cur l).1 :: (innerPass cur l).2) (cur :: l) := by
  induction l generalizing cur with
  | nil => exact List.Perm.refl _
  | cons x xs ih =>
    by_cases h : cur.createdAt < x.createdAt
    · simp only [innerPass, if_pos h]
      refine List.Perm.trans
        (List.Perm.swap cur (innerPass x xs).1 (innerPass x xs).2)
        ((ih x).cons cur)
    · simp only [innerPass, if_neg h]
      refine List.Perm.trans
        (List.Perm.swap x (innerPass cur xs).1 (innerPass cur xs).2)
        (List.Perm.trans ((ih cur).cons x) (List.Perm.swap cur x xs))

/-- One inner pass selects a newest element. -/
theorem innerPass_max (cur : Scan) (l : List Scan) :
    ∀ z ∈ cur :: l, z.createdAt ≤ (innerPass cur l).1.createdAt := by
  induction l generalizing cur with
  | nil =>
    intro z hz
    have hz' : z = cur := by simpa using hz
    subst hz'
    simp [innerPass]
  | cons x xs ih =>
    intro z hz
    rcases List.mem_cons.mp hz with hz1 | hz2
    · subst hz1
      by_cases h : z.createdAt < x.createdAt
      · simp only [innerPass, if_pos h]
        exact le_trans (le_of_lt h) (ih x x (List.mem_cons_self x xs))
      · simp only [innerPass, if_neg h]
        exact ih z z (List.mem_cons_self z xs)
    · rcases List.mem_cons.mp hz2 with hz3 | hz4
      · subst hz3
        by_cases h : cur.createdAt < z.createdAt
        · simp only [innerPass, if_pos h]
          exact ih z z (List.mem_cons_self z xs)
        · simp only [innerPass, if_neg h]
          exact le_trans (not_lt.mp h) (ih cur cur (List.mem_cons_self cur xs))
      · by_cases h : cur.createdAt < x.createdAt
        · simp only [innerPass, if_pos h]
          exact ih x z (List.mem_cons_of_mem x hz4)
        · simp only [innerPass, if_neg h]
          exact ih cur z (List.mem_cons_of_mem cur hz4)

/-- The repository sort is a permutation of its input. -/
theorem sortScans_perm (l : List Scan) : List.Perm (sortScans l) l := by
  have main : ∀ n (l : List Scan), l.length = n →
      List.Perm (sortScans l) l := by
    intro n
    induction n using Nat.strong_induction_on with
    | _ n ih =>
      intro l hl
      match l with
      | [] => simp [sortScans]
      | x :: xs =>
        have hlen : (innerPass x xs).2.length < n := by
          rw [innerPass_length]
          simp at hl
          omega
        have hrec := ih _ hlen (innerPass x xs).2 rfl
        have heq : sortScans (x :: xs)
            = (innerPass x xs).1 :: sortScans (innerPass x xs).2 := by
          simp [sortScans]
        rw [heq]
        exact List.Perm.trans (hrec.cons _) (innerPass_perm x xs)
  exact main l.length l rfl

/-- The repository sort orders scans by creation time, newest first. -/
theorem sortScans_sorted (l : List Scan) :
    List.Pairwise (fun a b => b.createdAt ≤ a.createdAt) (sortScans l) := by
  have main : ∀ n (l : List Scan), l.length = n →
      List.Pairwise (fun a b => b.createdAt ≤ a.createdAt) (sortScans l) := by
    intro n
    induction n using Nat.strong_induction_on with
    | _ n ih =>
      intro l hl
      match l with
      | [] => simp [sortScans]
      | x :: xs =>
        have hlen : (innerPass x xs).2.length < n := by
          rw [innerPass_length]
          simp at hl
          omega
        have hrec := ih _ hlen (innerPass x xs).2 rfl
        have hhead : ∀ z ∈ sortScans (innerPass x xs).2,
            z.createdAt ≤ (innerPass x xs).1.createdAt := by
          intro z hz
          have hz2 : z ∈ (innerPass x xs).2 :=
            (sortScans_perm (innerPass x xs).2).mem_iff.mp hz
          have hz3 : z ∈ x :: xs :=
            (innerPass_perm x xs).mem_iff.mp (List.mem_cons_of_mem _ hz2)
          exact innerPass_max x xs z hz3
        have : sortScans (x :: xs) =
            (innerPass x xs).1 :: sortScans (innerPass x xs).2 := by
          simp [sortScans]
        rw [this]
        exact List.Pairwise.cons hhead hrec
  exact main l.length l rfl

/-- The pagination tail of ListScans (repository.go:118-128): for
non-negative offset and limit it is drop-then-take on the sorted list. -/
theorem paginate_eq (L : List Scan) (limit offset : Int)
    (hoff : 0 ≤ offset) (hlim : 0 ≤ limit) :
    (if offset ≥ (L.length : Int) then some []
     else goSlice L offset
       (if offset + limit > (L.length : Int) then (L.length : Int)
        else offset + limit)) =
      some ((L.drop offset.toNat).take limit.toNat) := by
  by_cases hbig : offset ≥ (L.length : Int)
  · rw [if_pos hbig]
    have hd : L.drop offset.toNat = [] :=
      List.drop_eq_nil_of_le (by omega)
    rw [hd, List.take_nil]
  · rw [if_neg hbig]
    push_neg at hbig
    by_cases hclamp : offset + limit > (L.length : Int)
    · rw [if_pos hclamp]
      unfold goSlice
      rw [if_pos ⟨hoff, by omega, le_refl _⟩]
      have hlen : (L.drop offset.toNat).length = L.length - offset.toNat := by
        simp
      have h1 : (L.drop offset.toNat).length ≤
          ((L.length : Int) - offset).toNat := by omega
      have h2 : (L.drop offset.toNat).length ≤ limit.toNat := by omega
      rw [List.take_of_length_le h1, List.take_of_length_le h2]
    · rw [if_neg hclamp]
      unfold goSlice
      rw [if_pos ⟨hoff, by omega, by omega⟩]
      have harith : offset + limit - offset = limit := by ring
      rw [harith]

/-- C7. For non-negative offset and limit, ListScans returns the
owner-filtered scans, sorted by creation time descending, with offset/limit
pagination; the sorted list is a permutation of the filtered scans; an
offset at or past the number of matching scans yields the empty sequence;
and with pairwise-distinct creation times the order is strictly
descending. -/
theorem listScans_spec (repoScans : List Scan) (userID : String)
    (limit offset : Int) (hoff : 0 ≤ offset) (hlim : 0 ≤ limit) :
    ListScans repoScans userID limit offset =
      some (((sortScans (repoScans.filter
          (fun s => userID = "" ∨ s.userID = userID))).drop
        offset.toNat).take limit.toNat) ∧
    List.Perm
      (sortScans (repoScans.filter (fun s => userID = "" ∨ s.userID = userID)))
      (repoScans.filter (fun s => userID = "" ∨ s.userID = userID)) ∧
    List.Pairwise (fun a b => b.createdAt ≤ a.createdAt)
      (sortScans (repoScans.filter
        (fun s => userID = "" ∨ s.userID = userID))) ∧
    (((repoScans.filter
          (fun s => userID = "" ∨ s.userID = userID)).length : Int) ≤ offset →
      ListScans repoScans userID limit offset = some []) ∧
    (List.Pairwise (fun a b => a.createdAt ≠ b.createdAt)
        (repoScans.filter (fun s => userID = "" ∨ s.userID = userID)) →
      List.Pairwise (fun a b => b.createdAt < a.createdAt)
        (sortScans (repoScans.filter
          (fun s => userID = "" ∨ s.userID = userID)))) := by
  have main : ListScans repoScans userID limit offset =
      some (((sortScans (repoScans.filter
          (fun s => userID = "" ∨ s.userID = userID))).drop
        offset.toNat).take limit.toNat) :=
    paginate_eq _ limit offset hoff hlim
  have hperm := sortScans_perm
    (repoScans.filter (fun s => userID = "" ∨ s.userID = userID))
  refine ⟨main, hperm, sortScans_sorted _, ?_, ?_⟩
  · intro hge
    rw [main]
    have hlen := hperm.length_eq
    have hd : (sortScans (repoScans.filter
        (fun s => userID = "" ∨ s.userID = userID))).drop offset.toNat = [] :=
      List.drop_eq_nil_of_le (by omega)
    rw [hd, List.take_nil]
  · intro hne
    have hne' : List.Pairwise (fun a b => a.createdAt ≠ b.createdAt)
        (sortScans (repoScans.filter
          (fun s => userID = "" ∨ s.userID = userID))) :=
      (hperm.pairwise_iff (fun h => Ne.symm h)).mpr hne
    exact List.Pairwise.imp₂
      (fun a b h1 h2 => lt_of_le_of_ne h1 (Ne.symm h2))
      (sortScans_sorted _) hne'

/-- C10. A negative limit together with an offset below the number of
matching scans makes the slice upper bound fall below the lower bound, and
the Go slice expression `scans[offset:end]` panics (modelled by `none`). -/
theorem listScans_negative_limit_panics (repoScans : List Scan)
    (userID : String) (limit offset : Int) (hlim : limit < 0)
    (hoff : offset < ((repoScans.filter
        (fun s => userID = "" ∨ s.userID = userID)).length : Int)) :
    ListScans repoScans userID limit offset = none := by
  have hlen : (sortScans (repoScans.filter
      (fun s => userID = "" ∨ s.userID = userID))).length =
      (repoScans.filter (fun s => userID = "" ∨ s.userID = userID)).length :=
    (sortScans_perm _).length_eq
  simp only [ListScans]
  rw [hlen]
  rw [if_neg (show ¬ offset ≥ ((repoScans.filter
      (fun s => userID = "" ∨ s.userID = userID)).length : Int) by omega)]
  rw [if_neg (show ¬ offset + limit > ((repoScans.filter
      (fun s => userID = "" ∨ s.userID = userID)).length : Int) by omega)]
  unfold goSlice
  rw [if_neg]
  intro hcontra
  omega

theorem listScans_spec_witness :
    ListScans
      [⟨"s1", "u1", ⟨"t", "", "", 3, false, false, false, [], 0⟩,
        "COMPLETED", 0, 1, none, none, "", ""⟩,
       ⟨"s2", "u2", ⟨"t", "", "", 3, false, false, false, [], 0⟩,
        "COMPLETED", 0, 2, none, none, "", ""⟩] "" 10 0 =
      some
      [⟨"s2", "u2", ⟨"t", "", "", 3, false, false, false, [], 0⟩,
        "COMPLETED", 0, 2, none, none, "", ""⟩,
       ⟨"s1", "u1", ⟨"t", "", "", 3, false, false, false, [], 0⟩,
        "COMPLETED", 0, 1, none, none, "", ""⟩] := by
  have h := (listScans_spec
    [⟨"s1", "u1", ⟨"t", "", "", 3, false, false, false, [], 0⟩,
      "COMPLETED", 0, 1, none, none, "", ""⟩,
     ⟨"s2", "u2", ⟨"t", "", "", 3, false, false, false, [], 0⟩,
      "COMPLETED", 0, 2, none, none, "", ""⟩] "" 10 0
    (by decide) (by decide)).1
  rw [h]
  simp [sortScans, innerPass]

theorem listScans_negative_limit_panics_witness :
    ListScans
      [⟨"s1", "u1", ⟨"t", "", "", 3, false, false, false, [], 0⟩,
        "COMPLETED", 0, 1, none, none, "", ""⟩] "" (-1) 0 = none := by
  exact listScans_negative_limit_panics _ "" (-1) 0 (by decide) (by decide)

/-- The scan loop keeps exactly the scans at or after the cutoff. -/
theorem reapScans_fst_eq (cutoff : Int) (scans : List Scan)
    (results : List ScanResult) :
    (reapScans cutoff scans results).1 =
      scans.filter (fun s => ¬ s.createdAt < cutoff) := by
  induction scans generalizing results with
  | nil => rfl
  | cons s rest ih =>
    by_cases h : s.createdAt < cutoff
    · simp only [reapScans, if_pos h]
      rw [ih, List.filter_cons]
      simp [h]
    · simp only [reapScans, if_neg h]
      rw [ih, List.filter_cons]
      simp [h]

/-- A result survives the scan loop iff no expired scan references it. -/
theorem mem_reapScans_snd (cutoff : Int) (scans : List Scan)
    (results : List ScanResult) (r : ScanResult) :
    r ∈ (reapScans cutoff scans results).2 ↔
      r ∈ results ∧
      ¬ ∃ s ∈ scans, s.createdAt < cutoff ∧ s.resultID ≠ "" ∧
          r.id = s.resultID := by
  induction scans generalizing results with
  | nil => simp [reapScans]
  | cons s rest ih =>
    by_cases h : s.createdAt < cutoff
    · by_cases hrid : s.resultID = ""
      · simp only [reapScans, if_pos h, hrid]
        rw [if_neg (by simp)]
        rw [ih]
        constructor
        · rintro ⟨hr, hnex⟩
          refine ⟨hr, ?_⟩
          rintro ⟨t, ht, h1, h2, h3⟩
          rcases List.mem_cons.mp ht with rfl | ht'
          · exact h2 hrid
          · exact hnex ⟨t, ht', h1, h2, h3⟩
        · rintro ⟨hr, hnex⟩
          refine ⟨hr, ?_⟩
          rintro ⟨t, ht, h1, h2, h3⟩
          exact hnex ⟨t, List.mem_cons_of_mem s ht, h1, h2, h3⟩
      · simp only [reapScans, if_pos h]
        rw [if_pos (by simpa using hrid)]
        rw [ih]
        simp only [List.mem_filter, decide_eq_true_eq]
        constructor
        · rintro ⟨⟨hr, hne⟩, hnex⟩
          refine ⟨hr, ?_⟩
          rintro ⟨t, ht, h1, h2, h3⟩
          rcases List.mem_cons.mp ht with rfl | ht'
          · exact hne h3
          · exact hnex ⟨t, ht', h1, h2, h3⟩
        · rintro ⟨hr, hnex⟩
          refine ⟨⟨hr, ?_⟩, ?_⟩
          · intro heq
            exact hnex ⟨s, List.mem_cons_self s rest, h, hrid, heq⟩
          · rintro ⟨t, ht, h1, h2, h3⟩
            exact hnex ⟨t, List.mem_cons_of_mem s ht, h1, h2, h3⟩
    · simp only [reapScans, if_neg h]
      rw [ih]
      constructor
      · rintro ⟨hr, hnex⟩
        refine ⟨hr, ?_⟩
        rintro ⟨t, ht, h1, h2, h3⟩
        rcases List.mem_cons.mp ht with rfl | ht'
        · exact h h1
        · exact hnex ⟨t, ht', h1, h2, h3⟩
      · rintro ⟨hr, hnex⟩
        refine ⟨hr, ?_⟩
        rintro ⟨t, ht, h1, h2, h3⟩
        exact hnex ⟨t, List.mem_cons_of_mem s ht, h1, h2, h3⟩

/-- The surviving scans after a full tick. -/
theorem cleanupTick_fst (cutoff : Int) (scans : List Scan)
    (results : List ScanResult) :
    (cleanupTick cutoff scans results).1 =
      scans.filter (fun s => ¬ s.createdAt < cutoff) := by
  simp [cleanupTick, reapScans_fst_eq]

/-- A result survives a full tick iff no expired scan references it and its
job back-reference (when non-empty) still resolves. -/
theorem mem_cleanupTick_snd (cutoff : Int) (scans : List Scan)
    (results : List ScanResult) (r : ScanResult) :
    r ∈ (cleanupTick cutoff scans results).2 ↔
      (r ∈ results ∧
        ¬ ∃ s ∈ scans, s.createdAt < cutoff ∧ s.resultID ≠ "" ∧
            r.id = s.resultID) ∧
      (r.scanID = "" ∨
        ∃ t ∈ (cleanupTick cutoff scans results).1, t.id = r.scanID) := by
  simp [cleanupTick, List.mem_filter, mem_reapScans_snd, lookupScan,
    List.find?_isSome]

/-- C8. After one reaper tick: every scan created before the cutoff is gone,
and so is the result it references (when any); every result whose non-empty
job reference no longer resolves among the surviving scans is gone; scans
created at or after the cutoff survive, and nothing else survives; and a
result linked to a surviving scan — one referenced by no expired scan —
survives. -/
theorem cleanupTick_spec (cutoff : Int) (scans : List Scan)
    (results : List ScanResult) :
    (∀ s ∈ scans, s.createdAt < cutoff →
      s ∉ (cleanupTick cutoff scans results).1 ∧
      (s.resultID ≠ "" →
        ∀ r ∈ (cleanupTick cutoff scans results).2, r.id ≠ s.resultID)) ∧
    (∀ r ∈ results, r.scanID ≠ "" →
      (∀ t ∈ (cleanupTick cutoff scans results).1, t.id ≠ r.scanID) →
      r ∉ (cleanupTick cutoff scans results).2) ∧
    (∀ s ∈ scans, ¬ s.createdAt < cutoff →
      s ∈ (cleanupTick cutoff scans results).1) ∧
    (∀ t ∈ (cleanupTick cutoff scans results).1,
      t ∈ scans ∧ ¬ t.createdAt < cutoff) ∧
    (∀ j ∈ scans, ∀ r ∈ results, ¬ j.createdAt < cutoff →
      j.resultID = r.id → r.scanID = j.id →
      (∀ s ∈ scans, s.createdAt < cutoff → s.resultID ≠ r.id) →
      r ∈ (cleanupTick cutoff scans results).2) := by
  refine ⟨?_, ?_, ?_, ?_, ?_⟩
  · intro s hs hold
    constructor
    · rw [cleanupTick_fst]
      simp [hold]
    · intro hrid r hr
      intro heq
      have := (mem_cleanupTick_snd cutoff scans results r).mp hr
      exact this.1.2 ⟨s, hs, hold, hrid, heq⟩
  · intro r hr hsid hnone hmem
    have := (mem_cleanupTick_snd cutoff scans results r).mp hmem
    rcases this.2 with h0 | ⟨t, ht, hid⟩
    · exact hsid h0
    · exact hnone t ht hid
  · intro s hs hyoung
    rw [cleanupTick_fst]
    simp only [List.mem_filter, decide_eq_true_eq]
    exact ⟨hs, by omega⟩
  · intro t ht
    rw [cleanupTick_fst] at ht
    have := List.mem_filter.mp ht
    simpa using this
  · intro j hj r hr hyoung hlink hback huniq
    rw [mem_cleanupTick_snd]
    refine ⟨⟨hr, ?_⟩, Or.inr ⟨j, ?_, hback.symm⟩⟩
    · rintro ⟨s, hs, hold, hrid, heq⟩
      exact huniq s hs hold heq.symm
    · rw [cleanupTick_fst]
      simp only [List.mem_filter, decide_eq_true_eq]
      exact ⟨hj, by omega⟩

theorem cleanupTick_spec_witness :
    sampleOldScan ∉ (cleanupTick 10 sampleScans sampleResults).1 ∧
    (∀ r ∈ (cleanupTick 10 sampleScans sampleResults).2, r.id ≠ "r1") ∧
    sampleYoungScan ∈ (cleanupTick 10 sampleScans sampleResults).1 ∧
    sampleResult3 ∉ (cleanupTick 10 sampleScans sampleResults).2 ∧
    sampleResult2 ∈ (cleanupTick 10 sampleScans sampleResults).2 := by
  have h := cleanupTick_spec 10 sampleScans sampleResults
  exact ⟨(h.1 sampleOldScan (by decide) (by decide)).1,
    (h.1 sampleOldScan (by decide) (by decide)).2 (by decide),
    h.2.2.1 sampleYoungScan (by decide) (by decide),
    h.2.1 sampleResult3 (by decide) (by decide) (by decide),
    h.2.2.2.2 sampleYoungScan (by decide) sampleResult2 (by decide)
      (by decide) (by decide) (by decide) (by decide)⟩
